import Mathlib

/-!
Shallow embedding of `src/abc-dl.py`, a bulk content downloader that walks a
numeric article-ID range, fetches each even ID over HTTP, classifies the
response, writes valid documents to disk and records handled IDs in an
append-only index file (successes) and errors file (failures).

Modelling conventions:
  * Machine state that the Python loop mutates (the skip set, the two
    append-only files, the throttle timestamp, the progress reporter) is an
    explicit `State` record threaded through a step function.
  * Timestamps are integers (seconds); `datetime.now()` readings taken during
    one loop iteration are supplied by the environment (`Env`).
  * A parsed JSON document is a `Json` tree.  The body of an HTTP response is
    carried both as raw bytes (`content`, the value of `result.content`) and as
    the result of `result.json()` (`json`, `none` modelling the `ValueError`
    raised on unparseable bodies).  Numeric JSON payloads are modelled as
    integers; no claim depends on numeric payload values.
  * Python exceptions that the script does not catch (for example the
    `TypeError` raised by `result.json()["docType"]` when the parsed body is a
    list) abort the process; this is the `crashed` flag, after which the step
    function makes no further transitions.
-/

/-- Parsed JSON value as produced by `result.json()`. -/
inductive Json where
  | null : Json
  | bool : Bool → Json
  | num : Int → Json
  | str : String → Json
  | arr : List Json → Json
  | obj : List (String × Json) → Json

mutual

/-- Python `repr` of a JSON value (used by `str.format` for non-string
values); dictionaries and lists render recursively, strings get quotes. -/
def pyRepr : Json → String
  | Json.null => "None"
  | Json.bool true => "True"
  | Json.bool false => "False"
  | Json.num n => toString n
  | Json.str s => "\x27" ++ s ++ "\x27"
  | Json.arr xs => "[" ++ pyReprArr xs ++ "]"
  | Json.obj kvs => "\x7b" ++ pyReprObj kvs ++ "\x7d"

/-- Comma-separated reprs of the elements of a JSON array. -/
def pyReprArr : List Json → String
  | [] => ""
  | [j] => pyRepr j
  | j :: rest => pyRepr j ++ ", " ++ pyReprArr rest

/-- Comma-separated reprs of the key/value pairs of a JSON object. -/
def pyReprObj : List (String × Json) → String
  | [] => ""
  | [(k, v)] => "\x27" ++ k ++ "\x27: " ++ pyRepr v
  | (k, v) :: rest => "\x27" ++ k ++ "\x27: " ++ pyRepr v ++ ", " ++ pyReprObj rest

end

/-- Python `str()` of a JSON value, as used by `"{}_{}.json".format(...)` on
the `docType` value: a string formats as itself, anything else via repr. -/
def pyStr : Json → String
  | Json.str s => s
  | j => pyRepr j

/-- Python membership test `key in j` on a parsed JSON value: key lookup on a
dict, element equality on a list, substring test on a string; on any other
value Python raises `TypeError`, modelled as `none`. -/
def pyContains (key : String) : Json → Option Bool
  | Json.obj kvs => some (kvs.any (fun p => p.1 == key))
  | Json.arr xs =>
      some (xs.any (fun j => match j with
        | Json.str t => t == key
        | _ => false))
  | Json.str t => some (if key == "" then true else (t.splitOn key).length > 1)
  | _ => none

/-- Python subscript `j[key]` on a parsed JSON value: defined on a dict with
the key present; everything else raises `TypeError`, modelled as `none`. -/
def pySubscript (key : String) : Json → Option Json
  | Json.obj kvs => (kvs.find? (fun p => p.1 == key)).map Prod.snd
  | _ => none

/-- One HTTP response as the script sees it: `result.status_code`,
`result.content` (raw body bytes) and the outcome of `result.json()`
(`none` = the body is not parseable JSON, so `result.json()` raises
`ValueError`). -/
structure Response where
  status : Nat
  content : List Nat
  json : Option Json

/-- Classification of one fetched response (the branch structure at lines
181-230 of `src/abc-dl.py`). -/
inductive FetchOutcome where
  | saved : String → List Nat → FetchOutcome
  | invalid : String → FetchOutcome
  | rateLimited : FetchOutcome
  | httpError : Nat → FetchOutcome
deriving DecidableEq

/-- Classify one HTTP response exactly as the loop body does: status 429
first (`requests.codes.too_many_requests`), then status 200 with the JSON /
`docType` analysis, any other status is an HTTP error.  `none` models an
uncaught `TypeError` from the `in` / subscript operations on a parsed body
that is not a dict (only `ValueError` is caught by the script).  The handling
of an HTTP 200 body (the `try` block at lines 196-225) is `classifyJson`:
parse failure is an invalid-JSON error, a parsed body containing a `docType`
field is saved with the raw bytes, a parsed body without one is not a
document. -/
def classifyJson (content : List Nat) : Option Json → Option FetchOutcome
  | none => some (FetchOutcome.invalid "invalid JSON")
  | some j =>
    match pyContains "docType" j with
    | none => none
    | some true =>
        (pySubscript "docType" j).map
          (fun v => FetchOutcome.saved (pyStr v) content)
    | some false => some (FetchOutcome.invalid "not a document")

/-- Classification of the whole response, in the priority order of the loop
body: 429 first, then the 200 body handling, any other status is an HTTP
error. -/
def classify (r : Response) : Option FetchOutcome :=
  if r.status = 429 then some FetchOutcome.rateLimited
  else if r.status = 200 then classifyJson r.content r.json
  else some (FetchOutcome.httpError r.status)

/-- Python `os.path.join` restricted to the two-argument shape used at line
202 of the script. -/
def pathJoin (d f : String) : String :=
  if f.toList.head? = some '/' then f
  else if d = "" then f
  else if d.toList.getLast? = some '/' then d ++ f
  else d ++ "/" ++ f

/-- Command-line configuration (`optparse` options of `main`), plus whether
the optional `progressbar` dependency imported successfully. -/
structure Config where
  outputDir : String
  indexFile : String
  errorsFile : String
  slowdownFactor : Rat
  pbarAvailable : Bool

/-- Environment of one loop iteration: the `datetime.now()` readings taken at
the delay check (line 165) and at the 429 handler (line 184), and the HTTP
response returned by `requests.get`. -/
structure Env where
  nowDelay : Int
  now429 : Int
  response : Response

/-- Observable state of the running process.  `indexLines` / `errorLines` are
the IDs whose decimal lines have been handed to `index_file.write` /
`skip_file.write`; `durableIndex` / `durableError` are the lines guaranteed
to be on disk (the script opens both files in append mode, writes through the
default block buffer, and never calls `flush` or `close` itself, so an abrupt
crash can lose buffered lines).  `gets` records the article IDs passed to
`requests.get`; `sleeps` the `time.sleep` amounts; `progressUpdates` the
values passed to `pbar.update`; `printed` the `(current, total)` pairs of the
textual fallback. -/
structure State where
  crashed : Bool
  skip : List Int
  indexLines : List Int
  errorLines : List Int
  durableIndex : List Int
  durableError : List Int
  outputs : List (String × List Nat)
  stopDelayingAt : Int
  gets : List Int
  progressUpdates : List Nat
  printed : List (Nat × Nat)
  sleeps : List Rat

/-- Line appended to the index file by one outcome: only a Saved outcome and
only when `options.index_file` is truthy (a non-empty string). -/
def indexAppend (cfg : Config) (id : Int) : Option FetchOutcome → List Int
  | some (FetchOutcome.saved _ _) => if cfg.indexFile ≠ "" then [id] else []
  | _ => []

/-- Line appended to the errors file by one outcome: Invalid and HttpError
outcomes, when `options.errors_file` is truthy. -/
def errorAppend (cfg : Config) (id : Int) : Option FetchOutcome → List Int
  | some (FetchOutcome.invalid _) => if cfg.errorsFile ≠ "" then [id] else []
  | some (FetchOutcome.httpError _) => if cfg.errorsFile ≠ "" then [id] else []
  | _ => []

/-- Output file written by one outcome: one file per Saved outcome, named
`"{}_{}.json".format(docType, article_id)` under the output directory, whose
contents are the raw response bytes. -/
def outputAppend (cfg : Config) (id : Int) : Option FetchOutcome → List (String × List Nat)
  | some (FetchOutcome.saved d c) =>
      [(pathJoin cfg.outputDir (d ++ "_" ++ toString id ++ ".json"), c)]
  | _ => []

/-- New value of `stop_delaying_at` after one outcome: a 429 sets it to now
plus `timedelta(minutes = 10)`, every other outcome leaves it unchanged. -/
def newStop (old : Int) (now429 : Int) : Option FetchOutcome → Int
  | some FetchOutcome.rateLimited => now429 + 600
  | _ => old

/-- Body of one loop iteration for an ID that is actually fetched (even, not
in the skip set): optional throttle sleep, the GET, the progress update, then
the outcome handling. -/
def fetchStep (cfg : Config) (total : Nat) (s : State) (i : Nat) (id : Int)
    (e : Env) : State :=
  let oc := classify e.response
  { s with
    crashed := oc.isNone
    sleeps := s.sleeps ++
      (if e.nowDelay < s.stopDelayingAt then [cfg.slowdownFactor] else [])
    gets := s.gets ++ [id]
    progressUpdates := s.progressUpdates ++
      (if cfg.pbarAvailable = true then [i] else [])
    printed := s.printed ++
      (if cfg.pbarAvailable = false ∧ i % 50 = 0 then [(i, total)] else [])
    stopDelayingAt := newStop s.stopDelayingAt e.now429 oc
    indexLines := s.indexLines ++ indexAppend cfg id oc
    errorLines := s.errorLines ++ errorAppend cfg id oc
    outputs := s.outputs ++ outputAppend cfg id oc }

/-- One iteration of the `for i, article_id in enumerate(id_range)` loop:
odd IDs and IDs in the skip set are skipped with no effect; after an uncaught
exception (`crashed`) the process makes no further transitions. -/
def step (cfg : Config) (total : Nat) (s : State) (i : Nat) (id : Int)
    (e : Env) : State :=
  if s.crashed then s
  else if id % 2 ≠ 0 then s
  else if s.skip.contains id then s
  else fetchStep cfg total s i id e

/-- Run the loop over the remaining `(article_id, environment)` pairs,
starting at enumeration index `i`. -/
def runFrom (cfg : Config) (total : Nat) : State → Nat → List (Int × Env) → State
  | s, _, [] => s
  | s, i, p :: rest => runFrom cfg total (step cfg total s i p.1 p.2) (i + 1) rest

/-- Process state right after startup: skip set loaded from the two files,
`stop_delaying_at = datetime.now() - timedelta(seconds=5)`, nothing fetched
or written yet. -/
def initState (skip : List Int) (startNow : Int) : State :=
  { crashed := false
    skip := skip
    indexLines := []
    errorLines := []
    durableIndex := []
    durableError := []
    outputs := []
    stopDelayingAt := startNow - 5
    gets := []
    progressUpdates := []
    printed := []
    sleeps := [] }

/-- The half-open Python `range(FROM, TO)` as a list of integers. -/
def idRange (a b : Int) : List Int :=
  (List.range (b - a).toNat).map (fun k : Nat => a + (k : Int))

/-- Python `int(line)` on one line read from a skip file: strip surrounding
whitespace, optional sign, then a non-empty run of decimal digits; anything
else raises `ValueError` (`none`).  (PEP 515 underscore grouping is not
modelled; no claim depends on it.) -/
def digitsToNat : List Char → Option Nat
  | l =>
    if l ≠ [] ∧ l.all Char.isDigit then
      some (l.foldl (fun a c => a * 10 + (c.toNat - 48)) 0)
    else none

/-- Surrounding-whitespace strip performed by Python `int` on a string. -/
def stripWs (l : List Char) : List Char :=
  ((l.dropWhile Char.isWhitespace).reverse.dropWhile Char.isWhitespace).reverse

/-- Python `int` applied to a text line (see `digitsToNat`). -/
def pythonInt (s : String) : Option Int :=
  match stripWs s.toList with
  | '-' :: rest => (digitsToNat rest).map (fun n => -(n : Int))
  | '+' :: rest => (digitsToNat rest).map (fun n => (n : Int))
  | l => (digitsToNat l).map (fun n => (n : Int))

/-- Parse every line of a skip file with `int`; the list comprehension at
lines 130/137 raises on a malformed line, so the whole read yields `none`. -/
def readIds : List String → Option (List Int)
  | [] => some []
  | line :: rest =>
    match pythonInt line, readIds rest with
    | some v, some vs => some (v :: vs)
    | _, _ => none

/-- Reading one skip file: a missing file (the `os.path.isfile` guard fails)
contributes an empty ID list; an existing one is parsed line by line. -/
def readSkipFile : Option (List String) → Option (List Int)
  | none => some []
  | some ls => readIds ls

/-- Startup skip-list loading (lines 126-143): errors file first, then the
index file; a malformed line in either is a fatal startup error (`none`). -/
def loadSkip (errLines idxLines : Option (List String)) : Option (List Int) :=
  match readSkipFile errLines with
  | none => none
  | some e =>
    match readSkipFile idxLines with
    | none => none
    | some i => some (e ++ i)

/-- Whole-process run: load the skip set (aborting before any network
activity on a malformed line), then drive the loop over `range(FROM, TO)`
with the per-ID environment `f`. -/
def mainRun (cfg : Config) (a b : Int) (errLines idxLines : Option (List String))
    (startNow : Int) (f : Int → Env) : Option State :=
  (loadSkip errLines idxLines).map (fun sk =>
    runFrom cfg (idRange a b).length (initState sk startNow) 0
      ((idRange a b).map (fun id => (id, f id))))

/-- Normal interpreter exit: CPython finalizes the still-open append-mode
file objects, flushing their buffers, so the written lines become durable. -/
def atExit (s : State) : State :=
  { s with durableIndex := s.indexLines, durableError := s.errorLines }

/-- One whole invocation over `range(a, b)` with starting skip list `sk`,
start time `t` and per-ID iteration environment `f`. -/
def rangeRun (cfg : Config) (total : Nat) (a b : Int) (sk : List Int) (t : Int)
    (f : Int → Env) : State :=
  runFrom cfg total (initState sk t) 0 ((idRange a b).map (fun id => (id, f id)))

/-- IDs present in the two skip files after a run, in the order the startup
loader merges them (errors file first, then the index file). -/
def skipOf (st : State) : List Int := st.errorLines ++ st.indexLines

/-! Concrete fixtures used by witnesses and counterexamples. -/

/-- Default command-line configuration of the script, with the progress-bar
dependency available. -/
def cfgDefault : Config :=
  { outputDir := "output"
    indexFile := "index.txt"
    errorsFile := "errors.txt"
    slowdownFactor := 1 / 2
    pbarAvailable := true }

/-- Parsed body of the sample document response. -/
def docJson : Json := Json.obj [("docType", Json.str "article"), ("title", Json.str "x")]

/-- Sample 200 response whose body is a document. -/
def respSaved : Response := { status := 200, content := [10, 20, 30], json := some docJson }

/-- Iteration environment carrying `respSaved`. -/
def envSaved : Env := { nowDelay := 0, now429 := 0, response := respSaved }

/-- Sample 429 response. -/
def resp429 : Response := { status := 429, content := [], json := none }

/-- Iteration environment carrying `resp429`. -/
def env429 : Env := { nowDelay := 0, now429 := 100, response := resp429 }

/-- Sample 200 response whose parsed body lacks a `docType` field. -/
def respNoDoc : Response :=
  { status := 200, content := [9], json := some (Json.obj [("title", Json.str "x")]) }

/-- Sample 200 response whose body is not parseable JSON. -/
def respBadJson : Response := { status := 200, content := [5], json := none }

/-- Sample 404 response. -/
def resp404 : Response := { status := 404, content := [], json := none }

/-- Iteration environment carrying `resp404`. -/
def env404 : Env := { nowDelay := 0, now429 := 0, response := resp404 }


/-- Response assignment for the idempotence witness: ID 10 is a document,
everything else is a 404. -/
def respEx (id : Int) : Response := if id = 10 then respSaved else resp404

/-- First-run environments for the idempotence witness. -/
def envEx1 (id : Int) : Env := { nowDelay := 0, now429 := 0, response := respEx id }

/-- Second-run environments (same responses, later clock). -/
def envEx2 (id : Int) : Env := { nowDelay := 5, now429 := 7, response := respEx id }


/-! Structural lemmas about one loop iteration. -/

theorem step_eq_self (cfg : Config) (total : Nat) (s : State) (i : Nat) (id : Int) (e : Env)
    (h : s.crashed = true ∨ id % 2 ≠ 0 ∨ s.skip.contains id = true) :
    step cfg total s i id e = s := by
  unfold step
  split_ifs with h1 h2 h3
  any_goals rfl
  rcases h with h | h | h
  · exact absurd h h1
  · exact absurd h h2
  · exact absurd h h3

theorem step_eq_fetchStep (cfg : Config) (total : Nat) (s : State) (i : Nat) (id : Int) (e : Env)
    (h1 : s.crashed = false) (h2 : id % 2 = 0) (h3 : s.skip.contains id = false) :
    step cfg total s i id e = fetchStep cfg total s i id e := by
  unfold step
  have c1 : ¬ (s.crashed = true) := by simp [h1]
  have c2 : ¬ (id % 2 ≠ 0) := by simp [h2]
  have c3 : ¬ (s.skip.contains id = true) := by rw [h3]; exact Bool.false_ne_true
  rw [if_neg c1, if_neg c2, if_neg c3]

theorem step_skip (cfg : Config) (total : Nat) (s : State) (i : Nat) (id : Int) (e : Env) :
    (step cfg total s i id e).skip = s.skip := by
  unfold step
  split_ifs <;> rfl

theorem step_durableIndex (cfg : Config) (total : Nat) (s : State) (i : Nat) (id : Int) (e : Env) :
    (step cfg total s i id e).durableIndex = s.durableIndex := by
  unfold step
  split_ifs <;> rfl

theorem step_durableError (cfg : Config) (total : Nat) (s : State) (i : Nat) (id : Int) (e : Env) :
    (step cfg total s i id e).durableError = s.durableError := by
  unfold step
  split_ifs <;> rfl

theorem indexAppend_shape (cfg : Config) (id : Int) (oc : Option FetchOutcome) :
    indexAppend cfg id oc = [] ∨ indexAppend cfg id oc = [id] := by
  rcases oc with _ | o
  · exact Or.inl rfl
  · cases o with
    | saved d c =>
        by_cases h : cfg.indexFile = ""
        · simp [indexAppend, h]
        · simp [indexAppend, h]
    | invalid r => exact Or.inl rfl
    | rateLimited => exact Or.inl rfl
    | httpError n => exact Or.inl rfl

theorem errorAppend_shape (cfg : Config) (id : Int) (oc : Option FetchOutcome) :
    errorAppend cfg id oc = [] ∨ errorAppend cfg id oc = [id] := by
  rcases oc with _ | o
  · exact Or.inl rfl
  · cases o with
    | saved d c => exact Or.inl rfl
    | invalid r =>
        by_cases h : cfg.errorsFile = ""
        · simp [errorAppend, h]
        · simp [errorAppend, h]
    | rateLimited => exact Or.inl rfl
    | httpError n =>
        by_cases h : cfg.errorsFile = ""
        · simp [errorAppend, h]
        · simp [errorAppend, h]

theorem step_indexLines_shape (cfg : Config) (total : Nat) (s : State) (i : Nat) (id : Int)
    (e : Env) :
    ∃ u, (step cfg total s i id e).indexLines = s.indexLines ++ u ∧ (u = [] ∨ u = [id]) := by
  unfold step
  split_ifs
  · exact ⟨[], by simp, Or.inl rfl⟩
  · exact ⟨[], by simp, Or.inl rfl⟩
  · exact ⟨[], by simp, Or.inl rfl⟩
  · exact ⟨indexAppend cfg id (classify e.response), rfl,
      indexAppend_shape cfg id (classify e.response)⟩

theorem step_errorLines_shape (cfg : Config) (total : Nat) (s : State) (i : Nat) (id : Int)
    (e : Env) :
    ∃ u, (step cfg total s i id e).errorLines = s.errorLines ++ u ∧ (u = [] ∨ u = [id]) := by
  unfold step
  split_ifs
  · exact ⟨[], by simp, Or.inl rfl⟩
  · exact ⟨[], by simp, Or.inl rfl⟩
  · exact ⟨[], by simp, Or.inl rfl⟩
  · exact ⟨errorAppend cfg id (classify e.response), rfl,
      errorAppend_shape cfg id (classify e.response)⟩

theorem step_gets_shape (cfg : Config) (total : Nat) (s : State) (i : Nat) (id : Int)
    (e : Env) :
    ∃ u, (step cfg total s i id e).gets = s.gets ++ u ∧ (u = [] ∨ u = [id]) := by
  unfold step
  split_ifs
  · exact ⟨[], by simp, Or.inl rfl⟩
  · exact ⟨[], by simp, Or.inl rfl⟩
  · exact ⟨[], by simp, Or.inl rfl⟩
  · exact ⟨[id], rfl, Or.inr rfl⟩

theorem step_crashed_of_isSome (cfg : Config) (total : Nat) (s : State) (i : Nat) (id : Int)
    (e : Env) (hs : s.crashed = false) (h : (classify e.response).isSome = true) :
    (step cfg total s i id e).crashed = false := by
  unfold step
  split_ifs
  · exact hs
  · exact hs
  · exact hs
  · unfold fetchStep
    simp only
    rcases ho : classify e.response with _ | o
    · rw [ho] at h
      simp at h
    · simp [ho]

theorem runFrom_nil (cfg : Config) (total : Nat) (s : State) (i : Nat) :
    runFrom cfg total s i [] = s := rfl

theorem runFrom_cons (cfg : Config) (total : Nat) (s : State) (i : Nat) (p : Int × Env)
    (l : List (Int × Env)) :
    runFrom cfg total s i (p :: l) =
      runFrom cfg total (step cfg total s i p.1 p.2) (i + 1) l := rfl

theorem runFrom_skip (cfg : Config) (total : Nat) (s : State) (i : Nat)
    (l : List (Int × Env)) :
    (runFrom cfg total s i l).skip = s.skip := by
  induction l generalizing s i with
  | nil => rfl
  | cons p rest ih => rw [runFrom_cons, ih, step_skip]

theorem runFrom_durableIndex (cfg : Config) (total : Nat) (s : State) (i : Nat)
    (l : List (Int × Env)) :
    (runFrom cfg total s i l).durableIndex = s.durableIndex := by
  induction l generalizing s i with
  | nil => rfl
  | cons p rest ih => rw [runFrom_cons, ih, step_durableIndex]

theorem runFrom_durableError (cfg : Config) (total : Nat) (s : State) (i : Nat)
    (l : List (Int × Env)) :
    (runFrom cfg total s i l).durableError = s.durableError := by
  induction l generalizing s i with
  | nil => rfl
  | cons p rest ih => rw [runFrom_cons, ih, step_durableError]

/-! Run-level lemmas: what the loop can append, and where appends come from. -/

theorem runFrom_indexLines_sublist (cfg : Config) (total : Nat) (s : State) (i : Nat)
    (l : List (Int × Env)) :
    ∃ t, (runFrom cfg total s i l).indexLines = s.indexLines ++ t ∧
      t.Sublist (l.map Prod.fst) := by
  induction l generalizing s i with
  | nil => exact ⟨[], by simp [runFrom_nil], List.nil_sublist _⟩
  | cons p rest ih =>
      obtain ⟨u, hu, hcase⟩ := step_indexLines_shape cfg total s i p.1 p.2
      obtain ⟨t, ht, hs⟩ := ih (step cfg total s i p.1 p.2) (i + 1)
      refine ⟨u ++ t, ?_, ?_⟩
      · rw [runFrom_cons, ht, hu, List.append_assoc]
      · rcases hcase with h | h
        · rw [h]
          simpa using List.Sublist.cons p.1 hs
        · rw [h]
          simpa using List.Sublist.cons₂ p.1 hs

theorem runFrom_errorLines_sublist (cfg : Config) (total : Nat) (s : State) (i : Nat)
    (l : List (Int × Env)) :
    ∃ t, (runFrom cfg total s i l).errorLines = s.errorLines ++ t ∧
      t.Sublist (l.map Prod.fst) := by
  induction l generalizing s i with
  | nil => exact ⟨[], by simp [runFrom_nil], List.nil_sublist _⟩
  | cons p rest ih =>
      obtain ⟨u, hu, hcase⟩ := step_errorLines_shape cfg total s i p.1 p.2
      obtain ⟨t, ht, hs⟩ := ih (step cfg total s i p.1 p.2) (i + 1)
      refine ⟨u ++ t, ?_, ?_⟩
      · rw [runFrom_cons, ht, hu, List.append_assoc]
      · rcases hcase with h | h
        · rw [h]
          simpa using List.Sublist.cons p.1 hs
        · rw [h]
          simpa using List.Sublist.cons₂ p.1 hs

theorem runFrom_gets_sublist (cfg : Config) (total : Nat) (s : State) (i : Nat)
    (l : List (Int × Env)) :
    ∃ t, (runFrom cfg total s i l).gets = s.gets ++ t ∧
      t.Sublist (l.map Prod.fst) := by
  induction l generalizing s i with
  | nil => exact ⟨[], by simp [runFrom_nil], List.nil_sublist _⟩
  | cons p rest ih =>
      obtain ⟨u, hu, hcase⟩ := step_gets_shape cfg total s i p.1 p.2
      obtain ⟨t, ht, hs⟩ := ih (step cfg total s i p.1 p.2) (i + 1)
      refine ⟨u ++ t, ?_, ?_⟩
      · rw [runFrom_cons, ht, hu, List.append_assoc]
      · rcases hcase with h | h
        · rw [h]
          simpa using List.Sublist.cons p.1 hs
        · rw [h]
          simpa using List.Sublist.cons₂ p.1 hs

theorem step_gets_shape2 (cfg : Config) (total : Nat) (s : State) (i : Nat) (id : Int)
    (e : Env) :
    ∃ u, (step cfg total s i id e).gets = s.gets ++ u ∧
      (u = [] ∨ (u = [id] ∧ id % 2 = 0 ∧ id ∉ s.skip)) := by
  unfold step
  split_ifs with h1 h2 h3
  · exact ⟨[], by simp, Or.inl rfl⟩
  · exact ⟨[], by simp, Or.inl rfl⟩
  · exact ⟨[], by simp, Or.inl rfl⟩
  · have hev : id % 2 = 0 := not_not.mp h2
    have hnsk : id ∉ s.skip := by simpa using h3
    exact ⟨[id], rfl, Or.inr ⟨rfl, hev, hnsk⟩⟩

theorem step_indexLines_shape2 (cfg : Config) (total : Nat) (s : State) (i : Nat) (id : Int)
    (e : Env) :
    ∃ u, (step cfg total s i id e).indexLines = s.indexLines ++ u ∧
      (u = [] ∨ (u = [id] ∧ id % 2 = 0 ∧ id ∉ s.skip)) := by
  unfold step
  split_ifs with h1 h2 h3
  · exact ⟨[], by simp, Or.inl rfl⟩
  · exact ⟨[], by simp, Or.inl rfl⟩
  · exact ⟨[], by simp, Or.inl rfl⟩
  · have hev : id % 2 = 0 := not_not.mp h2
    have hnsk : id ∉ s.skip := by simpa using h3
    refine ⟨indexAppend cfg id (classify e.response), rfl, ?_⟩
    rcases indexAppend_shape cfg id (classify e.response) with hc | hc
    · exact Or.inl hc
    · exact Or.inr ⟨hc, hev, hnsk⟩

theorem step_errorLines_shape2 (cfg : Config) (total : Nat) (s : State) (i : Nat) (id : Int)
    (e : Env) :
    ∃ u, (step cfg total s i id e).errorLines = s.errorLines ++ u ∧
      (u = [] ∨ (u = [id] ∧ id % 2 = 0 ∧ id ∉ s.skip)) := by
  unfold step
  split_ifs with h1 h2 h3
  · exact ⟨[], by simp, Or.inl rfl⟩
  · exact ⟨[], by simp, Or.inl rfl⟩
  · exact ⟨[], by simp, Or.inl rfl⟩
  · have hev : id % 2 = 0 := not_not.mp h2
    have hnsk : id ∉ s.skip := by simpa using h3
    refine ⟨errorAppend cfg id (classify e.response), rfl, ?_⟩
    rcases errorAppend_shape cfg id (classify e.response) with hc | hc
    · exact Or.inl hc
    · exact Or.inr ⟨hc, hev, hnsk⟩

theorem runFrom_mem_proj (cfg : Config) (total : Nat) (proj : State → List Int)
    (hshape : ∀ s i id e, ∃ u, proj (step cfg total s i id e) = proj s ++ u ∧
      (u = [] ∨ (u = [id] ∧ id % 2 = 0 ∧ id ∉ s.skip)))
    (s : State) (i : Nat) (l : List (Int × Env)) (x : Int)
    (h : x ∈ proj (runFrom cfg total s i l)) :
    x ∈ proj s ∨ (x ∈ l.map Prod.fst ∧ x % 2 = 0 ∧ x ∉ s.skip) := by
  induction l generalizing s i with
  | nil => exact Or.inl (by rwa [runFrom_nil] at h)
  | cons p rest ih =>
      rw [runFrom_cons] at h
      rcases ih (step cfg total s i p.1 p.2) (i + 1) h with h' | ⟨hm, he, hn⟩
      · obtain ⟨u, hu, hc⟩ := hshape s i p.1 p.2
        rw [hu] at h'
        rcases List.mem_append.mp h' with h'' | h''
        · exact Or.inl h''
        · rcases hc with hc | ⟨hc, hev, hnsk⟩
          · rw [hc] at h''
            simp at h''
          · rw [hc] at h''
            have hx : x = p.1 := by simpa using h''
            subst hx
            exact Or.inr ⟨by simp, hev, hnsk⟩
      · rw [step_skip] at hn
        exact Or.inr ⟨by simp [hm], he, hn⟩

theorem runFrom_mem_gets (cfg : Config) (total : Nat) (s : State) (i : Nat)
    (l : List (Int × Env)) (x : Int)
    (h : x ∈ (runFrom cfg total s i l).gets) :
    x ∈ s.gets ∨ (x ∈ l.map Prod.fst ∧ x % 2 = 0 ∧ x ∉ s.skip) :=
  runFrom_mem_proj cfg total (fun st => st.gets)
    (fun s i id e => step_gets_shape2 cfg total s i id e) s i l x h

theorem runFrom_mem_indexLines (cfg : Config) (total : Nat) (s : State) (i : Nat)
    (l : List (Int × Env)) (x : Int)
    (h : x ∈ (runFrom cfg total s i l).indexLines) :
    x ∈ s.indexLines ∨ (x ∈ l.map Prod.fst ∧ x % 2 = 0 ∧ x ∉ s.skip) :=
  runFrom_mem_proj cfg total (fun st => st.indexLines)
    (fun s i id e => step_indexLines_shape2 cfg total s i id e) s i l x h

theorem runFrom_mem_errorLines (cfg : Config) (total : Nat) (s : State) (i : Nat)
    (l : List (Int × Env)) (x : Int)
    (h : x ∈ (runFrom cfg total s i l).errorLines) :
    x ∈ s.errorLines ∨ (x ∈ l.map Prod.fst ∧ x % 2 = 0 ∧ x ∉ s.skip) :=
  runFrom_mem_proj cfg total (fun st => st.errorLines)
    (fun s i id e => step_errorLines_shape2 cfg total s i id e) s i l x h

theorem runFrom_crashed (cfg : Config) (total : Nat) (s : State) (i : Nat)
    (l : List (Int × Env)) (hcr : s.crashed = false)
    (hok : ∀ p ∈ l, (classify p.2.response).isSome = true) :
    (runFrom cfg total s i l).crashed = false := by
  induction l generalizing s i with
  | nil => rwa [runFrom_nil]
  | cons p rest ih =>
      rw [runFrom_cons]
      exact ih (step cfg total s i p.1 p.2) (i + 1)
        (step_crashed_of_isSome cfg total s i p.1 p.2 hcr (hok p (by simp)))
        (fun q hq => hok q (by simp [hq]))

/-! Facts about the response classification. -/

theorem classifyJson_ne_rateLimited (content : List Nat) (oj : Option Json) :
    classifyJson content oj ≠ some FetchOutcome.rateLimited := by
  intro h
  rcases oj with _ | j
  · simp [classifyJson] at h
  · rw [show classifyJson content (some j) =
        (match pyContains "docType" j with
          | none => none
          | some true =>
              (pySubscript "docType" j).map
                (fun v => FetchOutcome.saved (pyStr v) content)
          | some false => some (FetchOutcome.invalid "not a document")) from rfl] at h
    rcases hcnt : pyContains "docType" j with _ | b
    · rw [hcnt] at h
      simp at h
    · rw [hcnt] at h
      cases b
      · simp at h
      · rcases hsub : pySubscript "docType" j with _ | v
        · rw [hsub] at h
          simp at h
        · rw [hsub] at h
          simp at h

theorem classify_rateLimited_iff (r : Response) :
    classify r = some FetchOutcome.rateLimited ↔ r.status = 429 := by
  constructor
  · intro h
    by_contra h429
    unfold classify at h
    rw [if_neg h429] at h
    by_cases h200 : r.status = 200
    · rw [if_pos h200] at h
      exact classifyJson_ne_rateLimited r.content r.json h
    · rw [if_neg h200] at h
      simp at h
  · intro h
    unfold classify
    rw [if_pos h]

theorem classifyJson_saved_content (content : List Nat) (oj : Option Json) (d : String)
    (c : List Nat) (h : classifyJson content oj = some (FetchOutcome.saved d c)) :
    c = content := by
  rcases oj with _ | j
  · simp [classifyJson] at h
  · rw [show classifyJson content (some j) =
        (match pyContains "docType" j with
          | none => none
          | some true =>
              (pySubscript "docType" j).map
                (fun v => FetchOutcome.saved (pyStr v) content)
          | some false => some (FetchOutcome.invalid "not a document")) from rfl] at h
    rcases hcnt : pyContains "docType" j with _ | b
    · rw [hcnt] at h
      simp at h
    · rw [hcnt] at h
      cases b
      · simp at h
      · rcases hsub : pySubscript "docType" j with _ | v
        · rw [hsub] at h
          simp at h
        · rw [hsub] at h
          simp at h
          exact h.2.symm

theorem classify_saved_eq (r : Response) (d : String) (c : List Nat)
    (h : classify r = some (FetchOutcome.saved d c)) :
    r.status = 200 ∧ c = r.content := by
  unfold classify at h
  by_cases h429 : r.status = 429
  · rw [if_pos h429] at h
    simp at h
  · rw [if_neg h429] at h
    by_cases h200 : r.status = 200
    · rw [if_pos h200] at h
      exact ⟨h200, classifyJson_saved_content r.content r.json d c h⟩
    · rw [if_neg h200] at h
      simp at h

theorem newStop_of_ne (old now : Int) (oc : Option FetchOutcome)
    (h : oc ≠ some FetchOutcome.rateLimited) : newStop old now oc = old := by
  rcases oc with _ | o
  · rfl
  · cases o with
    | saved d c => rfl
    | invalid m => rfl
    | rateLimited => exact absurd rfl h
    | httpError n => rfl

theorem append_of_recorded (cfg : Config) (id : Int) (r : Response)
    (hok : (classify r).isSome = true)
    (hrl : classify r ≠ some FetchOutcome.rateLimited)
    (hi : cfg.indexFile ≠ "") (he : cfg.errorsFile ≠ "") :
    indexAppend cfg id (classify r) = [id] ∨ errorAppend cfg id (classify r) = [id] := by
  rcases hc : classify r with _ | o
  · rw [hc] at hok
    simp at hok
  · cases o with
    | saved d c =>
        left
        simp [indexAppend, hi]
    | invalid m =>
        right
        simp [errorAppend, he]
    | rateLimited =>
        rw [hc] at hrl
        exact absurd rfl hrl
    | httpError n =>
        right
        simp [errorAppend, he]

/-! Field equations of a fetching iteration. -/

theorem fetchStep_skip (cfg : Config) (total : Nat) (s : State) (i : Nat) (id : Int) (e : Env) :
    (fetchStep cfg total s i id e).skip = s.skip := rfl

theorem fetchStep_crashed (cfg : Config) (total : Nat) (s : State) (i : Nat) (id : Int)
    (e : Env) :
    (fetchStep cfg total s i id e).crashed = (classify e.response).isNone := rfl

theorem fetchStep_gets (cfg : Config) (total : Nat) (s : State) (i : Nat) (id : Int) (e : Env) :
    (fetchStep cfg total s i id e).gets = s.gets ++ [id] := rfl

theorem fetchStep_indexLines (cfg : Config) (total : Nat) (s : State) (i : Nat) (id : Int)
    (e : Env) :
    (fetchStep cfg total s i id e).indexLines =
      s.indexLines ++ indexAppend cfg id (classify e.response) := rfl

theorem fetchStep_errorLines (cfg : Config) (total : Nat) (s : State) (i : Nat) (id : Int)
    (e : Env) :
    (fetchStep cfg total s i id e).errorLines =
      s.errorLines ++ errorAppend cfg id (classify e.response) := rfl

theorem fetchStep_outputs (cfg : Config) (total : Nat) (s : State) (i : Nat) (id : Int)
    (e : Env) :
    (fetchStep cfg total s i id e).outputs =
      s.outputs ++ outputAppend cfg id (classify e.response) := rfl

theorem fetchStep_stopDelayingAt (cfg : Config) (total : Nat) (s : State) (i : Nat) (id : Int)
    (e : Env) :
    (fetchStep cfg total s i id e).stopDelayingAt =
      newStop s.stopDelayingAt e.now429 (classify e.response) := rfl

theorem fetchStep_sleeps (cfg : Config) (total : Nat) (s : State) (i : Nat) (id : Int)
    (e : Env) :
    (fetchStep cfg total s i id e).sleeps =
      s.sleeps ++ (if e.nowDelay < s.stopDelayingAt then [cfg.slowdownFactor] else []) := rfl

theorem fetchStep_progressUpdates (cfg : Config) (total : Nat) (s : State) (i : Nat) (id : Int)
    (e : Env) :
    (fetchStep cfg total s i id e).progressUpdates =
      s.progressUpdates ++ (if cfg.pbarAvailable = true then [i] else []) := rfl

theorem fetchStep_printed (cfg : Config) (total : Nat) (s : State) (i : Nat) (id : Int)
    (e : Env) :
    (fetchStep cfg total s i id e).printed =
      s.printed ++ (if cfg.pbarAvailable = false ∧ i % 50 = 0 then [(i, total)] else []) := rfl

/-! Coverage: a fetched ID whose outcome is not RateLimited is recorded. -/

theorem contains_eq_false_of_not_mem {l : List Int} {x : Int} (h : x ∉ l) :
    l.contains x = false := by
  cases hc : l.contains x
  · rfl
  · exact absurd (by simpa using hc) h

theorem runFrom_covers (cfg : Config) (total : Nat) (f : Int → Response)
    (hi : cfg.indexFile ≠ "") (he : cfg.errorsFile ≠ "")
    (l : List (Int × Env)) (s : State) (i : Nat)
    (hresp : ∀ p ∈ l, p.2.response = f p.1)
    (hcr : s.crashed = false)
    (hok : ∀ p ∈ l, (classify (f p.1)).isSome = true) :
    ∀ n, n ∈ l.map Prod.fst → n % 2 = 0 → n ∉ s.skip →
      classify (f n) = some FetchOutcome.rateLimited ∨
        n ∈ (runFrom cfg total s i l).indexLines ∨
        n ∈ (runFrom cfg total s i l).errorLines := by
  induction l generalizing s i with
  | nil =>
      intro n hmem
      simp at hmem
  | cons p rest ih =>
      intro n hmem hev hnsk
      have hmem' : n = p.1 ∨ n ∈ rest.map Prod.fst := by simpa using hmem
      have hpr : p.2.response = f p.1 := hresp p (by simp)
      have hpok2 : (classify (f p.1)).isSome = true := hok p (by simp)
      have hpok : (classify p.2.response).isSome = true := by
        rw [hpr]
        exact hpok2
      have hcr' : (step cfg total s i p.1 p.2).crashed = false :=
        step_crashed_of_isSome cfg total s i p.1 p.2 hcr hpok
      rcases hmem' with heq | hmem'
      · rw [heq] at hev hnsk ⊢
        by_cases hrl : classify (f p.1) = some FetchOutcome.rateLimited
        · exact Or.inl hrl
        · right
          have hcf : s.skip.contains p.1 = false := contains_eq_false_of_not_mem hnsk
          have hstep : step cfg total s i p.1 p.2 = fetchStep cfg total s i p.1 p.2 :=
            step_eq_fetchStep cfg total s i p.1 p.2 hcr hev hcf
          rcases append_of_recorded cfg p.1 (f p.1) hpok2 hrl hi he with hrec | hrec
          · left
            rw [runFrom_cons]
            obtain ⟨t, ht, _⟩ :=
              runFrom_indexLines_sublist cfg total (step cfg total s i p.1 p.2) (i + 1) rest
            rw [ht]
            refine List.mem_append_left _ ?_
            rw [hstep, fetchStep_indexLines, hpr, hrec]
            simp
          · right
            rw [runFrom_cons]
            obtain ⟨t, ht, _⟩ :=
              runFrom_errorLines_sublist cfg total (step cfg total s i p.1 p.2) (i + 1) rest
            rw [ht]
            refine List.mem_append_left _ ?_
            rw [hstep, fetchStep_errorLines, hpr, hrec]
            simp
      · rw [runFrom_cons]
        have hnsk' : n ∉ (step cfg total s i p.1 p.2).skip := by
          rw [step_skip]
          exact hnsk
        exact ih (step cfg total s i p.1 p.2) (i + 1)
          (fun q hq => hresp q (by simp [hq])) hcr'
          (fun q hq => hok q (by simp [hq])) n hmem' hev hnsk'

/-! Runs in which every fetched ID is rate limited record nothing. -/

theorem runFrom_rl_only (cfg : Config) (total : Nat) (l : List (Int × Env)) (s : State)
    (i : Nat)
    (hrl : ∀ p ∈ l, p.1 % 2 = 0 → p.1 ∉ s.skip →
      classify p.2.response = some FetchOutcome.rateLimited)
    (hidx : s.indexLines = []) (herr : s.errorLines = []) (hout : s.outputs = [])
    (hcr : s.crashed = false) :
    (runFrom cfg total s i l).indexLines = [] ∧
    (runFrom cfg total s i l).errorLines = [] ∧
    (runFrom cfg total s i l).outputs = [] := by
  induction l generalizing s i with
  | nil =>
      rw [runFrom_nil]
      exact ⟨hidx, herr, hout⟩
  | cons p rest ih =>
      rw [runFrom_cons]
      by_cases hev : p.1 % 2 = 0
      · by_cases hsk : p.1 ∈ s.skip
        · have hstep : step cfg total s i p.1 p.2 = s :=
            step_eq_self cfg total s i p.1 p.2 (Or.inr (Or.inr (by simpa using hsk)))
          rw [hstep]
          exact ih s (i + 1) (fun q hq => hrl q (by simp [hq])) hidx herr hout hcr
        · have hcls : classify p.2.response = some FetchOutcome.rateLimited :=
            hrl p (by simp) hev hsk
          have hstep : step cfg total s i p.1 p.2 = fetchStep cfg total s i p.1 p.2 :=
            step_eq_fetchStep cfg total s i p.1 p.2 hcr hev (contains_eq_false_of_not_mem hsk)
          rw [hstep]
          refine ih (fetchStep cfg total s i p.1 p.2) (i + 1) ?_ ?_ ?_ ?_ ?_
          · intro q hq hqev hqsk
            rw [fetchStep_skip] at hqsk
            exact hrl q (by simp [hq]) hqev hqsk
          · rw [fetchStep_indexLines, hcls, hidx]
            rfl
          · rw [fetchStep_errorLines, hcls, herr]
            rfl
          · rw [fetchStep_outputs, hcls, hout]
            rfl
          · rw [fetchStep_crashed, hcls]
            rfl
      · have hstep : step cfg total s i p.1 p.2 = s :=
          step_eq_self cfg total s i p.1 p.2 (Or.inr (Or.inl hev))
        rw [hstep]
        exact ih s (i + 1) (fun q hq => hrl q (by simp [hq])) hidx herr hout hcr

theorem idRange_nodup (a b : Int) : (idRange a b).Nodup := by
  unfold idRange
  have hinj : Function.Injective (fun k : Nat => a + (k : Int)) := by
    intro x y h
    simp only [add_right_inj, Int.natCast_inj] at h
    exact h
  exact List.Nodup.map hinj (List.nodup_range _)

/-! Claim theorems. -/

theorem classifyJson_some_eq (content : List Nat) (j : Json) :
    classifyJson content (some j) =
      match pyContains "docType" j with
      | none => none
      | some true =>
          (pySubscript "docType" j).map (fun v => FetchOutcome.saved (pyStr v) content)
      | some false => some (FetchOutcome.invalid "not a document") := rfl

theorem pySubscript_obj_of_any (kvs : List (String × Json))
    (h : kvs.any (fun p => p.1 == "docType") = true) :
    ∃ v, pySubscript "docType" (Json.obj kvs) = some v := by
  have hs : (kvs.find? (fun p => p.1 == "docType")).isSome = true := by
    rw [List.find?_isSome]
    simpa using h
  obtain ⟨w, hw⟩ := Option.isSome_iff_exists.mp hs
  refine ⟨w.2, ?_⟩
  show (kvs.find? (fun p => p.1 == "docType")).map Prod.snd = some w.2
  rw [hw]
  rfl

/-- C1: a fetched response is classified in priority order: status 429 gives
RateLimited regardless of body; status 200 whose parsed JSON object contains
a "docType" field gives Saved(docType value, raw body bytes); status 200
whose parsed JSON object lacks the field gives Invalid("not a document");
status 200 with an unparseable body gives Invalid("invalid JSON"); and any
other status gives HttpError(status). -/
theorem claim1_fetch_classification (r : Response) :
    (r.status = 429 → classify r = some FetchOutcome.rateLimited) ∧
    (r.status = 200 → ∀ kvs, r.json = some (Json.obj kvs) →
      kvs.any (fun p => p.1 == "docType") = true →
      ∃ v, pySubscript "docType" (Json.obj kvs) = some v ∧
        classify r = some (FetchOutcome.saved (pyStr v) r.content)) ∧
    (r.status = 200 → ∀ kvs, r.json = some (Json.obj kvs) →
      kvs.any (fun p => p.1 == "docType") = false →
      classify r = some (FetchOutcome.invalid "not a document")) ∧
    (r.status = 200 → r.json = none →
      classify r = some (FetchOutcome.invalid "invalid JSON")) ∧
    (r.status ≠ 429 → r.status ≠ 200 →
      classify r = some (FetchOutcome.httpError r.status)) := by
  refine ⟨?_, ?_, ?_, ?_, ?_⟩
  · intro h
    unfold classify
    rw [if_pos h]
  · intro h200 kvs hj hany
    have h429 : ¬ r.status = 429 := by omega
    obtain ⟨v, hv⟩ := pySubscript_obj_of_any kvs hany
    refine ⟨v, hv, ?_⟩
    unfold classify
    rw [if_neg h429, if_pos h200, hj, classifyJson_some_eq]
    rw [show pyContains "docType" (Json.obj kvs) =
        some (kvs.any (fun p => p.1 == "docType")) from rfl, hany]
    rw [hv]
    rfl
  · intro h200 kvs hj hany
    have h429 : ¬ r.status = 429 := by omega
    unfold classify
    rw [if_neg h429, if_pos h200, hj, classifyJson_some_eq]
    rw [show pyContains "docType" (Json.obj kvs) =
        some (kvs.any (fun p => p.1 == "docType")) from rfl, hany]
  · intro h200 hj
    have h429 : ¬ r.status = 429 := by omega
    unfold classify
    rw [if_neg h429, if_pos h200, hj]
    rfl
  · intro h429 h200
    unfold classify
    rw [if_neg h429, if_neg h200]

/-- Witness for C1: the five classification clauses evaluated on concrete
responses. -/
theorem claim1_witness :
    classify resp429 = some FetchOutcome.rateLimited ∧
    (∃ v, pySubscript "docType"
        (Json.obj [("docType", Json.str "article"), ("title", Json.str "x")]) = some v ∧
      classify respSaved = some (FetchOutcome.saved (pyStr v) respSaved.content)) ∧
    classify respNoDoc = some (FetchOutcome.invalid "not a document") ∧
    classify respBadJson = some (FetchOutcome.invalid "invalid JSON") ∧
    classify resp404 = some (FetchOutcome.httpError resp404.status) := by
  refine ⟨?_, ?_, ?_, ?_, ?_⟩
  · exact (claim1_fetch_classification resp429).1 rfl
  · exact (claim1_fetch_classification respSaved).2.1 rfl
      [("docType", Json.str "article"), ("title", Json.str "x")] rfl (by decide)
  · exact (claim1_fetch_classification respNoDoc).2.2.1 rfl
      [("title", Json.str "x")] rfl (by decide)
  · exact (claim1_fetch_classification respBadJson).2.2.2.1 rfl rfl
  · exact (claim1_fetch_classification resp404).2.2.2.2 (by decide) (by decide)

/-- C2: a 429 response appends no line to the index or error file (so the ID
stays eligible for a later run), sets the resume-at timestamp to now plus 10
minutes, and while the current time is before that timestamp every issued
request is preceded by a sleep of the configured slowdown factor. -/
theorem claim2_rate_limited (cfg : Config) (total : Nat) (s : State) (i : Nat)
    (id : Int) (e : Env) :
    (s.crashed = false → id % 2 = 0 → s.skip.contains id = false →
      e.response.status = 429 →
      (step cfg total s i id e).indexLines = s.indexLines ∧
      (step cfg total s i id e).errorLines = s.errorLines ∧
      (step cfg total s i id e).outputs = s.outputs ∧
      (step cfg total s i id e).stopDelayingAt = e.now429 + 600) ∧
    (s.crashed = false → id % 2 = 0 → s.skip.contains id = false →
      e.nowDelay < s.stopDelayingAt →
      (step cfg total s i id e).sleeps = s.sleeps ++ [cfg.slowdownFactor] ∧
      (step cfg total s i id e).gets = s.gets ++ [id]) := by
  constructor
  · intro h1 h2 h3 h429
    have hstep := step_eq_fetchStep cfg total s i id e h1 h2 h3
    have hcl : classify e.response = some FetchOutcome.rateLimited :=
      (classify_rateLimited_iff e.response).mpr h429
    refine ⟨?_, ?_, ?_, ?_⟩
    · rw [hstep, fetchStep_indexLines, hcl]
      simp [indexAppend]
    · rw [hstep, fetchStep_errorLines, hcl]
      simp [errorAppend]
    · rw [hstep, fetchStep_outputs, hcl]
      simp [outputAppend]
    · rw [hstep, fetchStep_stopDelayingAt, hcl]
      rfl
  · intro h1 h2 h3 hlt
    have hstep := step_eq_fetchStep cfg total s i id e h1 h2 h3
    constructor
    · rw [hstep, fetchStep_sleeps, if_pos hlt]
    · rw [hstep, fetchStep_gets]

/-- Witness for C2 at a concrete 429 iteration. -/
theorem claim2_witness :
    ((step cfgDefault 4 (initState [] 1000) 0 10 env429).indexLines
        = (initState [] 1000).indexLines ∧
      (step cfgDefault 4 (initState [] 1000) 0 10 env429).errorLines
        = (initState [] 1000).errorLines ∧
      (step cfgDefault 4 (initState [] 1000) 0 10 env429).outputs
        = (initState [] 1000).outputs ∧
      (step cfgDefault 4 (initState [] 1000) 0 10 env429).stopDelayingAt
        = env429.now429 + 600) ∧
    ((step cfgDefault 4 (initState [] 1000) 0 10 env429).sleeps
        = (initState [] 1000).sleeps ++ [cfgDefault.slowdownFactor] ∧
      (step cfgDefault 4 (initState [] 1000) 0 10 env429).gets
        = (initState [] 1000).gets ++ [10]) := by
  constructor
  · exact (claim2_rate_limited cfgDefault 4 (initState [] 1000) 0 10 env429).1
      rfl (by decide) (by decide) rfl
  · exact (claim2_rate_limited cfgDefault 4 (initState [] 1000) 0 10 env429).2
      rfl (by decide) (by decide) (by decide)

/-- C5: an odd article ID is never fetched and never appended to the index
file or the error file. -/
theorem claim5_odd_skipped (cfg : Config) (total : Nat) (sk : List Int) (t : Int)
    (i : Nat) (l : List (Int × Env)) (id : Int) (hodd : id % 2 ≠ 0) :
    id ∉ (runFrom cfg total (initState sk t) i l).gets ∧
    id ∉ (runFrom cfg total (initState sk t) i l).indexLines ∧
    id ∉ (runFrom cfg total (initState sk t) i l).errorLines := by
  refine ⟨fun h => ?_, fun h => ?_, fun h => ?_⟩
  · rcases runFrom_mem_gets cfg total (initState sk t) i l id h with h' | ⟨-, hev, -⟩
    · simp [initState] at h'
    · exact hodd hev
  · rcases runFrom_mem_indexLines cfg total (initState sk t) i l id h with h' | ⟨-, hev, -⟩
    · simp [initState] at h'
    · exact hodd hev
  · rcases runFrom_mem_errorLines cfg total (initState sk t) i l id h with h' | ⟨-, hev, -⟩
    · simp [initState] at h'
    · exact hodd hev

/-- Witness for C5 on a one-element run over the odd ID 1. -/
theorem claim5_witness :
    (1 : Int) ∉ (runFrom cfgDefault 1 (initState [] 0) 0 [(1, envSaved)]).gets ∧
    (1 : Int) ∉ (runFrom cfgDefault 1 (initState [] 0) 0 [(1, envSaved)]).indexLines ∧
    (1 : Int) ∉ (runFrom cfgDefault 1 (initState [] 0) 0 [(1, envSaved)]).errorLines :=
  claim5_odd_skipped cfgDefault 1 [] 0 0 [(1, envSaved)] 1 (by decide)

/-- C6: a Saved outcome writes exactly one output file, named by the docType
value and the article ID under the output directory, with contents identical
to the raw response bytes, and appends the ID to the index file. -/
theorem claim6_saved_effects (cfg : Config) (total : Nat) (s : State) (i : Nat) (id : Int)
    (e : Env) (d : String) (c : List Nat)
    (h1 : s.crashed = false) (h2 : id % 2 = 0) (h3 : s.skip.contains id = false)
    (hcl : classify e.response = some (FetchOutcome.saved d c))
    (hif : cfg.indexFile ≠ "") :
    (step cfg total s i id e).outputs =
      s.outputs ++ [(pathJoin cfg.outputDir (d ++ "_" ++ toString id ++ ".json"), c)] ∧
    c = e.response.content ∧
    (step cfg total s i id e).indexLines = s.indexLines ++ [id] := by
  have hstep := step_eq_fetchStep cfg total s i id e h1 h2 h3
  refine ⟨?_, (classify_saved_eq e.response d c hcl).2, ?_⟩
  · rw [hstep, fetchStep_outputs, hcl]
    rfl
  · rw [hstep, fetchStep_indexLines, hcl]
    simp [indexAppend, hif]

/-- Witness for C6: ID 10 with body containing docType "article" produces
exactly the file output/article_10.json with the raw bytes and appends 10 to
the index. -/
theorem claim6_witness :
    (step cfgDefault 4 (initState [] 0) 0 10 envSaved).outputs =
      (initState [] 0).outputs ++
        [(pathJoin cfgDefault.outputDir ("article" ++ "_" ++ toString (10 : Int) ++ ".json"),
          [10, 20, 30])] ∧
    [10, 20, 30] = envSaved.response.content ∧
    (step cfgDefault 4 (initState [] 0) 0 10 envSaved).indexLines =
      (initState [] 0).indexLines ++ [10] ∧
    pathJoin cfgDefault.outputDir ("article" ++ "_" ++ toString (10 : Int) ++ ".json")
      = "output/article_10.json" := by
  have h := claim6_saved_effects cfgDefault 4 (initState [] 0) 0 10 envSaved "article"
    [10, 20, 30] rfl (by decide) (by decide) (by decide) (by decide)
  exact ⟨h.1, h.2.1, h.2.2, by decide⟩

/-- C10: the throttle timestamp is modified only by a fetched response with
status 429, which sets it to exactly now plus 10 minutes irrespective of its
previous value; skipped IDs and Saved/Invalid/HttpError outcomes leave it
unchanged. -/
theorem claim10_throttle_frame (cfg : Config) (total : Nat) (s : State) (i : Nat)
    (id : Int) (e : Env) :
    (step cfg total s i id e).stopDelayingAt =
      if s.crashed = false ∧ id % 2 = 0 ∧ s.skip.contains id = false ∧
          e.response.status = 429
      then e.now429 + 600 else s.stopDelayingAt := by
  by_cases h1 : s.crashed = true
  · rw [step_eq_self cfg total s i id e (Or.inl h1), if_neg]
    rintro ⟨hc, -⟩
    rw [h1] at hc
    simp at hc
  · have h1' : s.crashed = false := by simpa using h1
    by_cases h2 : id % 2 = 0
    · by_cases h3 : s.skip.contains id = true
      · rw [step_eq_self cfg total s i id e (Or.inr (Or.inr h3)), if_neg]
        rintro ⟨-, -, hc, -⟩
        rw [h3] at hc
        simp at hc
      · have h3' : s.skip.contains id = false := by
          cases hcc : s.skip.contains id
          · rfl
          · exact absurd hcc h3
        rw [step_eq_fetchStep cfg total s i id e h1' h2 h3', fetchStep_stopDelayingAt]
        by_cases h4 : e.response.status = 429
        · have hcl : classify e.response = some FetchOutcome.rateLimited :=
            (classify_rateLimited_iff e.response).mpr h4
          rw [hcl, if_pos ⟨h1', h2, h3', h4⟩]
          rfl
        · have hcl : classify e.response ≠ some FetchOutcome.rateLimited := by
            intro hc
            exact h4 ((classify_rateLimited_iff e.response).mp hc)
          rw [newStop_of_ne _ _ _ hcl, if_neg]
          rintro ⟨-, -, -, hc⟩
          exact h4 hc
    · rw [step_eq_self cfg total s i id e (Or.inr (Or.inl h2)), if_neg]
      rintro ⟨-, hc, -⟩
      exact h2 hc

theorem readIds_cons (line : String) (rest : List String) :
    readIds (line :: rest) =
      match pythonInt line, readIds rest with
      | some v, some vs => some (v :: vs)
      | _, _ => none := rfl

theorem readIds_none (ls : List String) (line : String) (hml : line ∈ ls)
    (hp : pythonInt line = none) : readIds ls = none := by
  induction ls with
  | nil => simp at hml
  | cons a rest ih =>
      have hml' : line = a ∨ line ∈ rest := by simpa using hml
      rw [readIds_cons]
      rcases hml' with heq | hmem
      · subst heq
        rw [hp]
      · rw [ih hmem]
        rcases pythonInt a with _ | v
        · rfl
        · rfl

/-- C8: a malformed (non-integer) line in the error file or the index file is
a fatal startup error, aborting before any network activity, while a missing
file is treated as an empty skip list. -/
theorem claim8_startup_skiplist :
    (∀ errLs : List String, ∀ idxLs : Option (List String), ∀ line ∈ errLs,
      pythonInt line = none → loadSkip (some errLs) idxLs = none) ∧
    (∀ errLs : Option (List String), ∀ idxLs : List String, ∀ line ∈ idxLs,
      pythonInt line = none → loadSkip errLs (some idxLs) = none) ∧
    loadSkip none none = some [] ∧
    (∀ ls es, readIds ls = some es →
      loadSkip none (some ls) = some es ∧ loadSkip (some ls) none = some es) ∧
    (∀ cfg a b errF idxF t f, loadSkip errF idxF = none →
      mainRun cfg a b errF idxF t f = none) := by
  refine ⟨?_, ?_, rfl, ?_, ?_⟩
  · intro errLs idxLs line hml hp
    unfold loadSkip
    rw [show readSkipFile (some errLs) = readIds errLs from rfl,
      readIds_none errLs line hml hp]
  · intro errLs idxLs line hml hp
    unfold loadSkip
    rcases errLs with _ | ls
    · rw [show readSkipFile (some idxLs) = readIds idxLs from rfl,
        readIds_none idxLs line hml hp,
        show readSkipFile none = some ([] : List Int) from rfl]
    · rw [show readSkipFile (some ls) = readIds ls from rfl]
      rcases hr : readIds ls with _ | es
      · rfl
      · rw [show readSkipFile (some idxLs) = readIds idxLs from rfl,
          readIds_none idxLs line hml hp]
  · intro ls es h
    unfold loadSkip
    constructor
    · rw [show readSkipFile (some ls) = readIds ls from rfl, h,
        show readSkipFile none = some ([] : List Int) from rfl]
      simp
    · rw [show readSkipFile (some ls) = readIds ls from rfl, h,
        show readSkipFile none = some ([] : List Int) from rfl]
      simp
  · intro cfg a b errF idxF t f h
    unfold mainRun
    rw [h]
    rfl

/-- Witness for C8: a malformed line aborts, in either file, and the whole
run is aborted before any iteration. -/
theorem claim8_witness :
    loadSkip (some ["12", "abc"]) (some ["5"]) = none ∧
    loadSkip (some ["12"]) (some ["xyz"]) = none ∧
    mainRun cfgDefault 10 14 (some ["abc"]) none 0 (fun _ => envSaved) = none ∧
    loadSkip none (some ["5"]) = some [5] := by
  refine ⟨?_, ?_, ?_, ?_⟩
  · exact claim8_startup_skiplist.1 ["12", "abc"] (some ["5"]) "abc" (by decide) (by decide)
  · exact claim8_startup_skiplist.2.1 (some ["12"]) ["xyz"] "xyz" (by decide) (by decide)
  · exact claim8_startup_skiplist.2.2.2.2 cfgDefault 10 14 (some ["abc"]) none 0
      (fun _ => envSaved)
      (claim8_startup_skiplist.1 ["abc"] none "abc" (by decide) (by decide))
  · exact (claim8_startup_skiplist.2.2.2.1 ["5"] [5] (by decide)).1

/-- Counterexample to C4 as stated: after the record step for ID 10 (a Saved
outcome, appended to the index), the in-memory skip set is still empty — the
ID was not added to it. -/
theorem claim4_counterexample :
    (step cfgDefault 4 (initState [] 0) 0 10 envSaved).indexLines = [10] ∧
    (step cfgDefault 4 (initState [] 0) 0 10 envSaved).skip = [] ∧
    (10 : Int) ∉ (step cfgDefault 4 (initState [] 0) 0 10 envSaved).skip := by
  decide

/-- C4 amended: recording an outcome never adds the ID to the in-memory skip
set — the skip set is fixed at startup for the whole run; since the ID
sequence of a run is duplicate-free, each ID is nonetheless fetched at most
once per run. -/
theorem claim4_amended_skip_set (cfg : Config) (total : Nat) (s : State) (i : Nat)
    (l : List (Int × Env)) :
    (runFrom cfg total s i l).skip = s.skip ∧
    (∀ id : Int, s.gets = [] → (l.map Prod.fst).Nodup →
      ((runFrom cfg total s i l).gets).count id ≤ 1) := by
  refine ⟨runFrom_skip cfg total s i l, ?_⟩
  intro id hg hnd
  obtain ⟨t, ht, hsub⟩ := runFrom_gets_sublist cfg total s i l
  rw [ht, hg]
  simpa using le_trans (hsub.count_le id) (List.nodup_iff_count_le_one.mp hnd id)

/-- Witness for C4 amended, on a two-ID run. -/
theorem claim4_amended_witness :
    (runFrom cfgDefault 2 (initState [] 0) 0 [(10, envSaved), (11, env404)]).skip = [] ∧
    ((runFrom cfgDefault 2 (initState [] 0) 0 [(10, envSaved), (11, env404)]).gets).count 10
      ≤ 1 := by
  have h := claim4_amended_skip_set cfgDefault 2 (initState [] 0) 0
    [(10, envSaved), (11, env404)]
  exact ⟨h.1, h.2 10 rfl (by decide)⟩

/-- Counterexample to C7 as stated: with the rich renderer available, a run
over the single odd ID 1 advances the progress reporter zero times, not once
per processed ID. -/
theorem claim7_counterexample :
    ¬ ((runFrom cfgDefault 1 (initState [] 0) 0 [(1, envSaved)]).progressUpdates.length
        = 1) := by
  decide

/-- C7 amended: the progress reporter is touched only on iterations that
actually fetch (even ID, not in the skip set, process alive), after the GET:
the rich renderer is set to the enumeration index of that ID, and the textual
fallback prints current/total only when such an index is divisible by 50. -/
theorem claim7_amended_progress (cfg : Config) (total : Nat) (s : State) (i : Nat)
    (id : Int) (e : Env) :
    (step cfg total s i id e).progressUpdates =
      s.progressUpdates ++
        (if s.crashed = false ∧ id % 2 = 0 ∧ s.skip.contains id = false ∧
            cfg.pbarAvailable = true then [i] else []) ∧
    (step cfg total s i id e).printed =
      s.printed ++
        (if s.crashed = false ∧ id % 2 = 0 ∧ s.skip.contains id = false ∧
            cfg.pbarAvailable = false ∧ i % 50 = 0 then [(i, total)] else []) := by
  by_cases h1 : s.crashed = true
  · rw [step_eq_self cfg total s i id e (Or.inl h1)]
    constructor
    · rw [if_neg (by rintro ⟨hc, -⟩; rw [h1] at hc; simp at hc)]
      simp
    · rw [if_neg (by rintro ⟨hc, -⟩; rw [h1] at hc; simp at hc)]
      simp
  · have h1' : s.crashed = false := by simpa using h1
    by_cases h2 : id % 2 = 0
    · by_cases h3 : s.skip.contains id = true
      · rw [step_eq_self cfg total s i id e (Or.inr (Or.inr h3))]
        constructor
        · rw [if_neg (by rintro ⟨-, -, hc, -⟩; rw [h3] at hc; simp at hc)]
          simp
        · rw [if_neg (by rintro ⟨-, -, hc, -⟩; rw [h3] at hc; simp at hc)]
          simp
      · have h3' : s.skip.contains id = false := by
          cases hcc : s.skip.contains id
          · rfl
          · exact absurd hcc h3
        rw [step_eq_fetchStep cfg total s i id e h1' h2 h3']
        constructor
        · rw [fetchStep_progressUpdates]
          by_cases hp : cfg.pbarAvailable = true
          · rw [if_pos hp, if_pos ⟨h1', h2, h3', hp⟩]
          · rw [if_neg hp, if_neg (by rintro ⟨-, -, -, hc⟩; exact hp hc)]
        · rw [fetchStep_printed]
          by_cases hp : cfg.pbarAvailable = false
          · by_cases h50 : i % 50 = 0
            · rw [if_pos ⟨hp, h50⟩, if_pos ⟨h1', h2, h3', hp, h50⟩]
            · rw [if_neg (by rintro ⟨-, hc⟩; exact h50 hc),
                if_neg (by rintro ⟨-, -, -, -, hc⟩; exact h50 hc)]
          · rw [if_neg (by rintro ⟨hc, -⟩; exact hp hc),
              if_neg (by rintro ⟨-, -, -, hc, -⟩; exact hp hc)]
    · rw [step_eq_self cfg total s i id e (Or.inr (Or.inl h2))]
      constructor
      · rw [if_neg (by rintro ⟨-, hc, -⟩; exact h2 hc)]
        simp
      · rw [if_neg (by rintro ⟨-, hc, -⟩; exact h2 hc)]
        simp

/-- Counterexample to C9 as stated: immediately after the record step for ID
10 the appended index line sits in the write buffer only — nothing has been
explicitly flushed, so a crash at this point loses the line. -/
theorem claim9_counterexample :
    (step cfgDefault 4 (initState [] 0) 0 10 envSaved).indexLines = [10] ∧
    (step cfgDefault 4 (initState [] 0) 0 10 envSaved).durableIndex = [] := by
  decide

/-- C9 amended: the loop never flushes or closes the index or error file
handle (no iteration changes the durable file contents); the buffered lines
become durable only at normal interpreter exit, when the still-open
append-mode handles are finalized. -/
theorem claim9_amended_flush (cfg : Config) (total : Nat) (s : State) (i : Nat)
    (l : List (Int × Env)) :
    (runFrom cfg total s i l).durableIndex = s.durableIndex ∧
    (runFrom cfg total s i l).durableError = s.durableError ∧
    (∀ st : State, (atExit st).durableIndex = st.indexLines ∧
      (atExit st).durableError = st.errorLines) :=
  ⟨runFrom_durableIndex cfg total s i l, runFrom_durableError cfg total s i l,
    fun _ => ⟨rfl, rfl⟩⟩

theorem pairList_map_fst (a b : Int) (f : Int → Env) :
    ((idRange a b).map (fun id => (id, f id))).map Prod.fst = idRange a b := by
  rw [List.map_map]
  show List.map (fun x => x) (idRange a b) = idRange a b
  exact List.map_id' (idRange a b)

/-- C3: running the program twice over the same ID range with unchanged
server responses is idempotent: every ID recorded in the index or error file
by the first run is never fetched by the second run, the second run appends
no line to either file and creates no output file, and (the range being
duplicate-free) neither file of the first run holds duplicate lines. -/
theorem claim3_idempotent (cfg : Config) (total : Nat) (a b : Int)
    (f1 f2 : Int → Env) (resp : Int → Response) (t1 t2 : Int)
    (hq1 : ∀ id, (f1 id).response = resp id)
    (hq2 : ∀ id, (f2 id).response = resp id)
    (hok : ∀ id ∈ idRange a b, (classify (resp id)).isSome = true)
    (hi : cfg.indexFile ≠ "") (he : cfg.errorsFile ≠ "") :
    (∀ id, id ∈ skipOf (rangeRun cfg total a b [] t1 f1) →
      id ∉ (rangeRun cfg total a b (skipOf (rangeRun cfg total a b [] t1 f1)) t2 f2).gets) ∧
    (rangeRun cfg total a b (skipOf (rangeRun cfg total a b [] t1 f1)) t2 f2).indexLines
      = [] ∧
    (rangeRun cfg total a b (skipOf (rangeRun cfg total a b [] t1 f1)) t2 f2).errorLines
      = [] ∧
    (rangeRun cfg total a b (skipOf (rangeRun cfg total a b [] t1 f1)) t2 f2).outputs
      = [] ∧
    (rangeRun cfg total a b [] t1 f1).indexLines.Nodup ∧
    (rangeRun cfg total a b [] t1 f1).errorLines.Nodup := by
  have hresp1 : ∀ p ∈ (idRange a b).map (fun id => (id, f1 id)), p.2.response = resp p.1 := by
    intro p hp
    obtain ⟨id0, hid0, rfl⟩ := List.mem_map.mp hp
    exact hq1 id0
  have hok1 : ∀ p ∈ (idRange a b).map (fun id => (id, f1 id)),
      (classify (resp p.1)).isSome = true := by
    intro p hp
    obtain ⟨id0, hid0, rfl⟩ := List.mem_map.mp hp
    exact hok id0 hid0
  have hkey : ∀ id ∈ idRange a b, id % 2 = 0 →
      id ∉ skipOf (rangeRun cfg total a b [] t1 f1) →
      classify (resp id) = some FetchOutcome.rateLimited := by
    intro id hid hev hnk
    have hcov := runFrom_covers cfg total resp hi he
      ((idRange a b).map (fun id => (id, f1 id))) (initState [] t1) 0 hresp1 rfl hok1
      id (by rw [pairList_map_fst]; exact hid) hev (by simp [initState])
    simp only [skipOf, rangeRun] at hnk
    rcases hcov with h | h | h
    · exact h
    · exact absurd (List.mem_append.mpr (Or.inr h)) hnk
    · exact absurd (List.mem_append.mpr (Or.inl h)) hnk
  refine ⟨?_, ?_, ?_, ?_, ?_, ?_⟩
  · intro id hK hmem
    simp only [rangeRun] at hmem
    rcases runFrom_mem_gets cfg total
        (initState (skipOf (rangeRun cfg total a b [] t1 f1)) t2) 0
        ((idRange a b).map (fun id => (id, f2 id))) id hmem with h' | ⟨-, -, hn⟩
    · simp [initState] at h'
    · exact hn hK
  all_goals
    have hrl : ∀ p ∈ (idRange a b).map (fun id => (id, f2 id)), p.1 % 2 = 0 →
        p.1 ∉ (initState (skipOf (rangeRun cfg total a b [] t1 f1)) t2).skip →
        classify p.2.response = some FetchOutcome.rateLimited := by
      intro p hp hev hns
      obtain ⟨id0, hid0, rfl⟩ := List.mem_map.mp hp
      rw [hq2 id0]
      exact hkey id0 hid0 hev hns
  · exact (runFrom_rl_only cfg total ((idRange a b).map (fun id => (id, f2 id)))
      (initState (skipOf (rangeRun cfg total a b [] t1 f1)) t2) 0 hrl rfl rfl rfl rfl).1
  · exact (runFrom_rl_only cfg total ((idRange a b).map (fun id => (id, f2 id)))
      (initState (skipOf (rangeRun cfg total a b [] t1 f1)) t2) 0 hrl rfl rfl rfl rfl).2.1
  · exact (runFrom_rl_only cfg total ((idRange a b).map (fun id => (id, f2 id)))
      (initState (skipOf (rangeRun cfg total a b [] t1 f1)) t2) 0 hrl rfl rfl rfl rfl).2.2
  · obtain ⟨t, ht, hsub⟩ := runFrom_indexLines_sublist cfg total (initState [] t1) 0
      ((idRange a b).map (fun id => (id, f1 id)))
    have hnd : t.Nodup := List.Nodup.sublist hsub
      (by rw [pairList_map_fst]; exact idRange_nodup a b)
    simp only [rangeRun]
    rw [ht]
    simpa using hnd
  · obtain ⟨t, ht, hsub⟩ := runFrom_errorLines_sublist cfg total (initState [] t1) 0
      ((idRange a b).map (fun id => (id, f1 id)))
    have hnd : t.Nodup := List.Nodup.sublist hsub
      (by rw [pairList_map_fst]; exact idRange_nodup a b)
    simp only [rangeRun]
    rw [ht]
    simpa using hnd

/-- Witness for C3 on the range [10, 12): ID 10 is saved by the first run,
ID 11 is odd; the second run fetches nothing that was recorded and appends
nothing. -/
theorem claim3_witness :
    (∀ id, id ∈ skipOf (rangeRun cfgDefault 2 10 12 [] 0 envEx1) →
      id ∉ (rangeRun cfgDefault 2 10 12 (skipOf (rangeRun cfgDefault 2 10 12 [] 0 envEx1))
        3 envEx2).gets) ∧
    (rangeRun cfgDefault 2 10 12 (skipOf (rangeRun cfgDefault 2 10 12 [] 0 envEx1))
      3 envEx2).indexLines = [] ∧
    (rangeRun cfgDefault 2 10 12 (skipOf (rangeRun cfgDefault 2 10 12 [] 0 envEx1))
      3 envEx2).errorLines = [] ∧
    (rangeRun cfgDefault 2 10 12 (skipOf (rangeRun cfgDefault 2 10 12 [] 0 envEx1))
      3 envEx2).outputs = [] ∧
    (rangeRun cfgDefault 2 10 12 [] 0 envEx1).indexLines.Nodup ∧
    (rangeRun cfgDefault 2 10 12 [] 0 envEx1).errorLines.Nodup :=
  claim3_idempotent cfgDefault 2 10 12 envEx1 envEx2 respEx 0 3
    (fun _ => rfl) (fun _ => rfl)
    (by
      intro id hid
      have hr : idRange 10 12 = [10, 11] := by decide
      rw [hr] at hid
      have hcase : id = 10 ∨ id = 11 := by simpa using hid
      rcases hcase with rfl | rfl
      · decide
      · decide)
    (by decide) (by decide)
